import Mathlib

/-!
Shallow embedding of `src/Coroutine.hpp` (class `EffectivePatterns::Coroutine`),
a generator built from a dedicated worker thread, one mutex, one condition
variable and the fields `quit`, `canGetValue`, `result` (lines 101-106).

Three models are developed, at the granularity each verified property needs:

* a sequential model of the caller-visible operations (`construct`, `resume`,
  `destruct`, `get`).  Every caller-side operation of the source blocks until
  the worker is suspended inside `yield`'s wait (line 55) or has terminated,
  so between caller steps the object is quiescent and each operation is a
  function from the state seen at its entry to the state seen at its return;
* a model of exception propagation through the user body, for the internal
  `InterruptedException` cancellation signal (lines 55-59, 96-99, 114-117);
* a small-step interleaving model of the mutex / condition-variable handshake
  itself (both threads, lock ownership, the wait set, spurious wakeups), for
  the strict-alternation property.
-/

namespace CoroutineModel

/-- How a straight-line user body ends after its last `yield`: it either
returns normally, or raises a user error that is not the internal
`InterruptedException`. -/
inductive BodyEnd where
  | ret
  | raiseErr
deriving DecidableEq

/-- A straight-line user body for the value-carrying `Coroutine<YieldValue>`:
the values it passes to `yield` (line 49) in program order, then how it
ends. -/
structure Body (V : Type) where
  yields : List V
  ending : BodyEnd

/-- The caller-visible state of a `Coroutine<YieldValue>` object at a point
where the caller may run.  `quit`, `canGetValue`, `result` are the data
members of the C++ class (lines 104-106).  `pending` and `ending` record the
rest of the program of the worker suspended inside `yield`; once the worker
has terminated they are `[]` and the recorded ending.  `published` is a ghost
history: every value passed to `yield` so far, in program order. -/
structure CoState (V : Type) where
  quit : Bool
  canGetValue : Bool
  result : V
  pending : List V
  ending : BodyEnd
  published : List V
deriving DecidableEq

/-- Result of a caller-side call: either it returns with the object in the
given state, or an exception escaped `run` (lines 108-122) on the worker
thread, in which case the C++ runtime calls `std::terminate` and the whole
process is aborted (no state is ever observed again). -/
inductive Outcome (V : Type) where
  | ok (s : CoState V)
  | terminated
deriving DecidableEq

/-- Constructor, lines 29-36, together with the start of `run` (lines
108-122): the constructor holds the mutex and waits on the condition
variable, so it returns only once the worker has published its first value
from inside `yield` (lines 51-54) or has finished.  `d` is the
default-constructed initial content of the `result` member (line 106).
A body that raises before its first `yield` aborts the process: `run` only
catches `InterruptedException` (line 114). -/
def construct {V : Type} (b : Body V) (d : V) : Outcome V :=
  match b.yields with
  | v :: rest => Outcome.ok ⟨false, true, v, rest, b.ending, [v]⟩
  | [] =>
    match b.ending with
    | BodyEnd.ret => Outcome.ok ⟨true, false, d, [], BodyEnd.ret, []⟩
    | BodyEnd.raiseErr => Outcome.terminated

/-- Member `resume`, lines 74-83, with the debug assertion `assert(!quit)`
(line 77) compiled out: if `quit` is already set the call returns at once
leaving every field as it was; otherwise the caller wakes the worker and
blocks until the worker either publishes its next value from `yield`
(lines 52-53), or finishes (`run` sets `quit` and clears `canGetValue`,
lines 118-120), or lets a user exception escape the thread
(`std::terminate`). -/
def resume {V : Type} (s : CoState V) : Outcome V :=
  if s.quit then Outcome.ok s
  else
    match s.pending with
    | v :: rest =>
      Outcome.ok { s with
        result := v
        canGetValue := true
        pending := rest
        published := s.published ++ [v] }
    | [] =>
      match s.ending with
      | BodyEnd.ret => Outcome.ok { s with quit := true, canGetValue := false }
      | BodyEnd.raiseErr => Outcome.terminated

/-- Destructor, lines 38-47: sets `quit`, clears `canGetValue`, wakes the
worker (which observes `quit` inside `yield` and unwinds, lines 56-59) and
joins it.  Remaining pending yields of the body are discarded. -/
def destruct {V : Type} (s : CoState V) : CoState V :=
  { s with quit := true, canGetValue := false }

/-- Member `get`, lines 62-66, with the assertion compiled out: it reads
`result` and assigns to no field. -/
def get {V : Type} (s : CoState V) : V :=
  s.result

/-- Member `get` with its assertion `assert(canGetValue)` (line 64) active:
`none` models the assertion firing (fail fast), `some` the returned value. -/
def getChecked {V : Type} (s : CoState V) : Option V :=
  if s.canGetValue then some s.result else none

/-- Member `get` presented as a state transformer, to state frame properties:
lines 62-66 read `canGetValue` and `result` and assign to no field, so on
success the state is returned unchanged. -/
def getStep {V : Type} (s : CoState V) : Option (V × CoState V) :=
  if s.canGetValue then some (s.result, s) else none

/-- The conversion `operator bool`, lines 85-88: true while not finished. -/
def alive {V : Type} (s : CoState V) : Bool :=
  !s.quit

/-- The mutating caller-side operations (`get` and the bool conversion do not
assign to any field and are modelled separately). -/
inductive Op where
  | resume
  | destruct
deriving DecidableEq

/-- Apply one caller-side operation. -/
def applyOp {V : Type} (s : CoState V) : Op → Outcome V
  | Op.resume => resume s
  | Op.destruct => Outcome.ok (destruct s)

/-- Apply a sequence of caller-side operations, stopping if the process was
aborted. -/
def runOps {V : Type} (s : CoState V) : List Op → Outcome V
  | [] => Outcome.ok s
  | op :: ops =>
    match applyOp s op with
    | Outcome.ok s' => runOps s' ops
    | Outcome.terminated => Outcome.terminated

/-- The intended driving loop of the spec,
`while (coroutine) { ... read ... ; coroutine.resume(); }`, with a fuel
bound: while `quit` is unset, record the currently published value and
resume.  Returns the values observed, in order, and the final outcome. -/
def driveLoop {V : Type} : Nat → CoState V → List V × Outcome V
  | 0, s => ([], Outcome.ok s)
  | n + 1, s =>
    if s.quit then ([], Outcome.ok s)
    else
      match resume s with
      | Outcome.ok s' =>
        match driveLoop n s' with
        | (vs, o) => (s.result :: vs, o)
      | Outcome.terminated => ([s.result], Outcome.terminated)

/-- Iterate `getStep` a number of times, collecting the values returned. -/
def getRepeat {V : Type} : Nat → CoState V → Option (List V × CoState V)
  | 0, s => some ([], s)
  | n + 1, s =>
    match getStep s with
    | some (v, s') =>
      match getRepeat n s' with
      | some (vs, s'') => some (v :: vs, s'')
      | none => none
    | none => none

/-- Chain a `resume` after a previous caller-side call. -/
def bindResume {V : Type} : Outcome V → Outcome V
  | Outcome.ok s => resume s
  | Outcome.terminated => Outcome.terminated

/-- Chain a checked `get` after a previous caller-side call. -/
def readOutcome {V : Type} : Outcome V → Option V
  | Outcome.ok s => getChecked s
  | Outcome.terminated => none

/-!
Model of the internal cancellation signal travelling through the body.

`yield` (lines 49-60) throws `InterruptedException` after being woken with
`quit` set (lines 56-59); the class is declared
`class InterruptedException : public std::exception` (lines 96-99), so under
C++ catch-clause matching it is caught by any `catch (const std::exception &)`
(and by any `catch (...)`) that the user body wraps around its `yield`
calls.
-/

namespace CancelSignal

/-- Exceptions that can travel through the body: the internal
`InterruptedException` of the coroutine, or an ordinary user error. -/
inductive Exc where
  | interrupted
  | userErr
deriving DecidableEq

/-- Whether a `catch (const std::exception &)` clause matches the exception.
`InterruptedException` publicly derives from `std::exception` (line 96), so
it matches; the user error is modelled as a standard exception as well
(for instance `std::runtime_error`). -/
def catchesStdExc : Exc → Bool
  | Exc.interrupted => true
  | Exc.userErr => true

/-- User bodies with exception handlers: return, raise a user error, call
`yield`, perform an observable side effect (`report`, standing for any
logging or error-reporting the body's handler does), or wrap a sub-body in
`try { _ } catch (const std::exception &) { _ }`. -/
inductive BodyExp (V : Type) where
  | ret
  | raiseUser
  | yield (v : V) (k : BodyExp V)
  | report (k : BodyExp V)
  | tryStd (b : BodyExp V) (h : BodyExp V)

/-- How the execution of a body fragment ends. -/
inductive ExecRes where
  | finished
  | raised (e : Exc)
  | blocked
deriving DecidableEq

/-- Execute a body against a schedule of yield outcomes: the entry for a
`yield` is `true` when the destructor set `quit` while the worker was
suspended in that `yield` (so, per lines 56-59, the `yield` call raises
`InterruptedException` instead of returning), `false` when the caller
resumed normally.  Returns the number of `report` actions performed, the
way the fragment ended, and the unconsumed schedule.  An exhausted schedule
leaves the worker suspended (`blocked`). -/
def execBody {V : Type} : BodyExp V → List Bool → Nat × ExecRes × List Bool
  | BodyExp.ret, sch => (0, ExecRes.finished, sch)
  | BodyExp.raiseUser, sch => (0, ExecRes.raised Exc.userErr, sch)
  | BodyExp.report k, sch =>
    match execBody k sch with
    | (r, res, sch') => (r + 1, res, sch')
  | BodyExp.yield _ k, sch =>
    match sch with
    | [] => (0, ExecRes.blocked, [])
    | q :: sch' =>
      if q then (0, ExecRes.raised Exc.interrupted, sch') else execBody k sch'
  | BodyExp.tryStd b h, sch =>
    match execBody b sch with
    | (r, ExecRes.raised e, sch') =>
      if catchesStdExc e then
        match execBody h sch' with
        | (r2, res, sch2) => (r + r2, res, sch2)
      else (r, ExecRes.raised e, sch')
    | other => other

/-- A body that guards its single `yield` with a standard-exception
handler which reports what it caught:
`try { c->yield(0); } catch (const std::exception &) { log(); }`. -/
def guardedBody : BodyExp Nat :=
  BodyExp.tryStd (BodyExp.yield 0 BodyExp.ret) (BodyExp.report BodyExp.ret)

end CancelSignal

/-!
Small-step interleaving model of the handshake (both threads, the mutex, the
condition-variable wait set), for the strict-alternation property.  Control
locations follow the synchronization skeleton of the source; the value
fields `result` / `canGetValue` are omitted because no branch of the
synchronization code reads them.  Statements executed back to back under the
same mutex hold (publish, `notify_all`, entering `wait`) are bundled into
one atomic step, which is faithful because no other thread can interleave
with them while the mutex is held.
-/

namespace Handshake

/-- Which thread holds the mutex. -/
inductive Owner where
  | caller
  | worker
deriving DecidableEq, Fintype

/-- Control locations of the caller thread.  `ctor`: constructor lines
32-36; `res`: member `resume` lines 74-83; `dtor`: destructor lines 38-47;
`user`: the constructor has returned and the caller executes its own user
code between calls into the coroutine. -/
inductive CLoc where
  | ctorWaitEnter
  | ctorInWs
  | ctorReacq
  | user
  | resLock
  | resHave
  | resInWs
  | resReacq
  | dtorLock
  | dtorHave
  | dtorNotifyLoc
  | dtorJoin
  | finished
deriving DecidableEq, Fintype

/-- Control locations of the worker thread.  `user`: `run` (line 112) is
executing the user body between `yield` calls; `yield*`: member `yield`
lines 49-60; `end*`: the tail of `run`, lines 118-121; `dead`: the thread
function has returned (normally, or by catching `InterruptedException` at
line 114). -/
inductive WLoc where
  | user
  | yieldLock
  | yieldHave
  | yieldInWs
  | yieldReacq
  | yieldCheck
  | endLock
  | endHave
  | dead
deriving DecidableEq, Fintype

/-- A configuration of the two threads: both control locations, how many
`yield` calls the body still intends to make, the mutex owner (`none` =
free), and the `quit` flag. -/
structure Sys where
  cloc : CLoc
  wloc : WLoc
  yieldsLeft : Nat
  mutex : Option Owner
  quit : Bool
deriving DecidableEq

/-- Effect of `notify_all` on the caller: a caller sitting in the wait set
is moved to its reacquire location (it still has to take the mutex back
before its `wait` returns). -/
def notifyC : CLoc → CLoc
  | CLoc.ctorInWs => CLoc.ctorReacq
  | CLoc.resInWs => CLoc.resReacq
  | c => c

/-- Effect of `notify_all` on the worker. -/
def notifyW : WLoc → WLoc
  | WLoc.yieldInWs => WLoc.yieldReacq
  | w => w

/-- One interleaved step of the handshake, with well-behaved condition
variables (a `wait` returns only after a `notify_all`).  Caller rules then
worker rules; each acquire is guarded by the mutex being free. -/
inductive Step : Sys → Sys → Prop where
  | ctorWait (w n q) :
      Step ⟨CLoc.ctorWaitEnter, w, n, some Owner.caller, q⟩
        ⟨CLoc.ctorInWs, w, n, none, q⟩
  | ctorRet (w n q) :
      Step ⟨CLoc.ctorReacq, w, n, none, q⟩ ⟨CLoc.user, w, n, none, q⟩
  | resCall (w n m q) :
      Step ⟨CLoc.user, w, n, m, q⟩ ⟨CLoc.resLock, w, n, m, q⟩
  | resAcq (w n q) :
      Step ⟨CLoc.resLock, w, n, none, q⟩
        ⟨CLoc.resHave, w, n, some Owner.caller, q⟩
  | resFinished (w n) :
      Step ⟨CLoc.resHave, w, n, some Owner.caller, true⟩
        ⟨CLoc.user, w, n, none, true⟩
  | resGo (w n) :
      Step ⟨CLoc.resHave, w, n, some Owner.caller, false⟩
        ⟨CLoc.resInWs, notifyW w, n, none, false⟩
  | resRet (w n q) :
      Step ⟨CLoc.resReacq, w, n, none, q⟩ ⟨CLoc.user, w, n, none, q⟩
  | dtorCall (w n m q) :
      Step ⟨CLoc.user, w, n, m, q⟩ ⟨CLoc.dtorLock, w, n, m, q⟩
  | dtorAcq (w n q) :
      Step ⟨CLoc.dtorLock, w, n, none, q⟩
        ⟨CLoc.dtorHave, w, n, some Owner.caller, q⟩
  | dtorSet (w n q) :
      Step ⟨CLoc.dtorHave, w, n, some Owner.caller, q⟩
        ⟨CLoc.dtorNotifyLoc, w, n, none, true⟩
  | dtorNotifyStep (w n m q) :
      Step ⟨CLoc.dtorNotifyLoc, w, n, m, q⟩ ⟨CLoc.dtorJoin, notifyW w, n, m, q⟩
  | dtorJoinDone (n m q) :
      Step ⟨CLoc.dtorJoin, WLoc.dead, n, m, q⟩ ⟨CLoc.finished, WLoc.dead, n, m, q⟩
  | yieldCall (c n m q) :
      Step ⟨c, WLoc.user, n + 1, m, q⟩ ⟨c, WLoc.yieldLock, n, m, q⟩
  | bodyRet (c m q) :
      Step ⟨c, WLoc.user, 0, m, q⟩ ⟨c, WLoc.endLock, 0, m, q⟩
  | yieldAcq (c n q) :
      Step ⟨c, WLoc.yieldLock, n, none, q⟩
        ⟨c, WLoc.yieldHave, n, some Owner.worker, q⟩
  | yieldPub (c n q) :
      Step ⟨c, WLoc.yieldHave, n, some Owner.worker, q⟩
        ⟨notifyC c, WLoc.yieldInWs, n, none, q⟩
  | yieldReacqGo (c n q) :
      Step ⟨c, WLoc.yieldReacq, n, none, q⟩
        ⟨c, WLoc.yieldCheck, n, some Owner.worker, q⟩
  | yieldRet (c n) :
      Step ⟨c, WLoc.yieldCheck, n, some Owner.worker, false⟩
        ⟨c, WLoc.user, n, none, false⟩
  | yieldThrow (c n) :
      Step ⟨c, WLoc.yieldCheck, n, some Owner.worker, true⟩
        ⟨c, WLoc.dead, n, none, true⟩
  | endAcq (c n q) :
      Step ⟨c, WLoc.endLock, n, none, q⟩
        ⟨c, WLoc.endHave, n, some Owner.worker, q⟩
  | endSet (c n q) :
      Step ⟨c, WLoc.endHave, n, some Owner.worker, q⟩
        ⟨notifyC c, WLoc.dead, n, none, true⟩

/-- One interleaved step under real C++ condition-variable semantics, where
any `wait` may also return spuriously (the standard permits it, and none of
the three `wait` calls of the source is guarded by a predicate loop): a
waiter may leave the wait set at any moment and proceed to reacquire the
mutex. -/
inductive StepSp : Sys → Sys → Prop where
  | base {s t : Sys} : Step s t → StepSp s t
  | spCtorWake (w n m q) :
      StepSp ⟨CLoc.ctorInWs, w, n, m, q⟩ ⟨CLoc.ctorReacq, w, n, m, q⟩
  | spResWake (w n m q) :
      StepSp ⟨CLoc.resInWs, w, n, m, q⟩ ⟨CLoc.resReacq, w, n, m, q⟩
  | spYieldWake (c n m q) :
      StepSp ⟨c, WLoc.yieldInWs, n, m, q⟩ ⟨c, WLoc.yieldReacq, n, m, q⟩

/-- Configuration right after the constructor created the worker thread
(line 34): the caller still holds the mutex taken at line 32 and is about to
wait; the worker begins executing the user body, which intends `n` yields. -/
def start (n : Nat) : Sys :=
  ⟨CLoc.ctorWaitEnter, WLoc.user, n, some Owner.caller, false⟩

/-- Both sides are executing user code at the same time. -/
def bothRunUserCode (s : Sys) : Prop :=
  s.cloc = CLoc.user ∧ s.wloc = WLoc.user

/-- The abstract configurations (control locations, mutex owner, `quit`)
reachable under well-behaved condition variables; the number of remaining
yields is irrelevant to them. -/
def invList : List (CLoc × WLoc × Option Owner × Bool) :=
  [ (CLoc.ctorWaitEnter, WLoc.user, some Owner.caller, false),
    (CLoc.ctorWaitEnter, WLoc.yieldLock, some Owner.caller, false),
    (CLoc.ctorWaitEnter, WLoc.endLock, some Owner.caller, false),
    (CLoc.ctorInWs, WLoc.user, none, false),
    (CLoc.ctorInWs, WLoc.yieldLock, none, false),
    (CLoc.ctorInWs, WLoc.endLock, none, false),
    (CLoc.ctorInWs, WLoc.yieldHave, some Owner.worker, false),
    (CLoc.ctorInWs, WLoc.endHave, some Owner.worker, false),
    (CLoc.ctorReacq, WLoc.yieldInWs, none, false),
    (CLoc.ctorReacq, WLoc.dead, none, true),
    (CLoc.user, WLoc.yieldInWs, none, false),
    (CLoc.user, WLoc.dead, none, true),
    (CLoc.resLock, WLoc.yieldInWs, none, false),
    (CLoc.resHave, WLoc.yieldInWs, some Owner.caller, false),
    (CLoc.resInWs, WLoc.yieldReacq, none, false),
    (CLoc.resInWs, WLoc.yieldCheck, some Owner.worker, false),
    (CLoc.resInWs, WLoc.user, none, false),
    (CLoc.resInWs, WLoc.yieldLock, none, false),
    (CLoc.resInWs, WLoc.yieldHave, some Owner.worker, false),
    (CLoc.resInWs, WLoc.endLock, none, false),
    (CLoc.resInWs, WLoc.endHave, some Owner.worker, false),
    (CLoc.resReacq, WLoc.yieldInWs, none, false),
    (CLoc.resReacq, WLoc.dead, none, true),
    (CLoc.resLock, WLoc.dead, none, true),
    (CLoc.resHave, WLoc.dead, some Owner.caller, true),
    (CLoc.dtorLock, WLoc.yieldInWs, none, false),
    (CLoc.dtorHave, WLoc.yieldInWs, some Owner.caller, false),
    (CLoc.dtorNotifyLoc, WLoc.yieldInWs, none, true),
    (CLoc.dtorJoin, WLoc.yieldReacq, none, true),
    (CLoc.dtorJoin, WLoc.yieldCheck, some Owner.worker, true),
    (CLoc.dtorJoin, WLoc.dead, none, true),
    (CLoc.dtorLock, WLoc.dead, none, true),
    (CLoc.dtorHave, WLoc.dead, some Owner.caller, true),
    (CLoc.dtorNotifyLoc, WLoc.dead, none, true),
    (CLoc.finished, WLoc.dead, none, true) ]

/-- Decidable form of the reachability invariant on the abstract
configuration. -/
def invA (c : CLoc) (w : WLoc) (m : Option Owner) (q : Bool) : Bool :=
  decide ((c, w, m, q) ∈ invList)

/-- Decidable form of the reachability invariant. -/
def invB (s : Sys) : Bool :=
  invA s.cloc s.wloc s.mutex s.quit

end Handshake

/-! Theorems.  First the lemmas about the sequential model, then one theorem
(and, where needed, one witness or counterexample) per verified property. -/

theorem driveLoop_of_quit {V : Type} (m : Nat) (s : CoState V) (h : s.quit = true) :
    driveLoop m s = ([], Outcome.ok s) := by
  cases m with
  | zero => rfl
  | succ n => simp [driveLoop, h]

theorem driveLoop_drain {V : Type} :
    ∀ (p : List V) (s : CoState V), s.quit = false → s.ending = BodyEnd.ret →
      s.pending = p →
      ∃ f : CoState V, f.quit = true ∧ f.canGetValue = false ∧
        ∀ m : Nat, p.length < m → driveLoop m s = (s.result :: p, Outcome.ok f) := by
  intro p
  induction p with
  | nil =>
    intro s hq he hp
    refine ⟨{ s with quit := true, canGetValue := false }, rfl, rfl, ?_⟩
    intro m hm
    obtain ⟨k, rfl⟩ : ∃ k, m = k + 1 := ⟨m - 1, by omega⟩
    have hres : resume s = Outcome.ok { s with quit := true, canGetValue := false } := by
      simp [resume, hq, hp, he]
    simp [driveLoop, hq, hres, driveLoop_of_quit]
  | cons v rest ih =>
    intro s hq he hp
    have hres : resume s = Outcome.ok { s with
        result := v, canGetValue := true, pending := rest,
        published := s.published ++ [v] } := by
      simp [resume, hq, hp]
    obtain ⟨f, hf1, hf2, hf3⟩ := ih { s with
        result := v, canGetValue := true, pending := rest,
        published := s.published ++ [v] } hq he rfl
    refine ⟨f, hf1, hf2, ?_⟩
    intro m hm
    obtain ⟨k, rfl⟩ : ∃ k, m = k + 1 := ⟨m - 1, by omega⟩
    have hk : rest.length < k := by
      simp [List.length_cons] at hm
      omega
    have hrec := hf3 k hk
    simp only [hq] at hrec
    simp [driveLoop, hq, hres, hrec]

/-- C1, the claim as frozen, is false on the code: the constructor itself
runs the worker to its first `yield` (lines 32-35), so for the body that
yields 10 then 20, the first `get` after the first `resume` observes 20,
not the first yielded value 10. -/
theorem c1_claim_false :
    readOutcome (bindResume (construct ⟨[10, 20], BodyEnd.ret⟩ (0 : Nat))) = some 20 ∧
    (20 : Nat) ≠ 10 := by
  constructor
  · rfl
  · decide

/-- C1 as amended: construction pre-publishes the first yielded value, so
the driving loop of the spec reads the current value before each `resume`.
For every body that yields the non-empty list `vs` and returns, that loop
observes exactly `vs` — each value once, in program order, none skipped —
using `vs.length` resumes, the last of which finishes the coroutine, and the
next liveness check is false (running the loop with one more round of fuel
observes nothing further). -/
theorem c1_ordering_amended :
    ∀ (V : Type) (vs : List V) (d : V) (s0 : CoState V),
      construct ⟨vs, BodyEnd.ret⟩ d = Outcome.ok s0 → vs ≠ [] →
      ∃ f : CoState V, f.quit = true ∧ alive f = false ∧
        driveLoop vs.length s0 = (vs, Outcome.ok f) ∧
        driveLoop (vs.length + 1) s0 = (vs, Outcome.ok f) := by
  intro V vs d s0 hc hne
  cases vs with
  | nil => exact absurd rfl hne
  | cons v rest =>
    have hs0 : s0 = ⟨false, true, v, rest, BodyEnd.ret, [v]⟩ := by
      simp [construct] at hc
      exact hc.symm
    subst hs0
    obtain ⟨f, hf1, hf2, hf3⟩ :=
      driveLoop_drain rest ⟨false, true, v, rest, BodyEnd.ret, [v]⟩ rfl rfl rfl
    refine ⟨f, hf1, by simp [alive, hf1], ?_, ?_⟩
    · have := hf3 (rest.length + 1) (by omega)
      simpa [List.length_cons] using this
    · have := hf3 (rest.length + 2) (by omega)
      simpa [List.length_cons] using this

theorem c1_ordering_amended_witness :
    ∃ f : CoState Nat, f.quit = true ∧ alive f = false ∧
      driveLoop 2 (⟨false, true, 1, [2], BodyEnd.ret, [1]⟩ : CoState Nat) =
        ([1, 2], Outcome.ok f) ∧
      driveLoop 3 (⟨false, true, 1, [2], BodyEnd.ret, [1]⟩ : CoState Nat) =
        ([1, 2], Outcome.ok f) :=
  c1_ordering_amended Nat [1, 2] 0 ⟨false, true, 1, [2], BodyEnd.ret, [1]⟩ rfl (by decide)

/-- C2: the code path at the failing input.  For a body that yields 10 and
20 and then raises a user error, the second `resume` does not deliver the
error to the caller: the exception escapes `run` (whose only handler, line
114, catches `InterruptedException` alone), so `std::terminate` aborts the
whole process. -/
theorem c2_body_error_aborts_process :
    bindResume (bindResume (construct ⟨[10, 20], BodyEnd.raiseErr⟩ (0 : Nat))) =
      Outcome.terminated := by
  rfl

theorem runOps_preserves {V : Type} (P : CoState V → Prop)
    (hstep : ∀ (s s' : CoState V) (op : Op),
      applyOp s op = Outcome.ok s' → P s → P s') :
    ∀ (ops : List Op) (s s' : CoState V),
      runOps s ops = Outcome.ok s' → P s → P s' := by
  intro ops
  induction ops with
  | nil =>
    intro s s' h hP
    simp [runOps] at h
    exact h ▸ hP
  | cons op ops ih =>
    intro s s' h hP
    cases hop : applyOp s op with
    | ok s1 =>
      rw [runOps, hop] at h
      exact ih s1 s' h (hstep s s1 op hop hP)
    | terminated =>
      rw [runOps, hop] at h
      exact Outcome.noConfusion h

theorem quit_mono_op {V : Type} (s s' : CoState V) (op : Op)
    (h : applyOp s op = Outcome.ok s') (hq : s.quit = true) : s'.quit = true := by
  cases op with
  | resume =>
    simp [applyOp, resume, hq] at h
    exact h ▸ hq
  | destruct =>
    simp [applyOp, destruct] at h
    exact h ▸ rfl

theorem iq_op {V : Type} (s s' : CoState V) (op : Op)
    (h : applyOp s op = Outcome.ok s')
    (hi : s.quit = true → s.canGetValue = false) :
    s'.quit = true → s'.canGetValue = false := by
  cases op with
  | destruct =>
    simp [applyOp, destruct] at h
    intro _
    exact h ▸ rfl
  | resume =>
    cases hq : s.quit with
    | true =>
      simp [applyOp, resume, hq] at h
      intro _
      exact h ▸ hi hq
    | false =>
      cases hp : s.pending with
      | cons v rest =>
        simp [applyOp, resume, hq, hp] at h
        intro h'
        rw [← h] at h'
        simp [hq] at h'
      | nil =>
        cases he : s.ending with
        | ret =>
          simp [applyOp, resume, hq, hp, he] at h
          intro _
          exact h ▸ rfl
        | raiseErr =>
          simp [applyOp, resume, hq, hp, he] at h

theorem construct_iq {V : Type} (b : Body V) (d : V) (s0 : CoState V)
    (h : construct b d = Outcome.ok s0) :
    s0.quit = true → s0.canGetValue = false := by
  rcases b with ⟨ys, e⟩
  cases ys with
  | cons v rest =>
    simp [construct] at h
    intro h'
    rw [← h] at h'
    simp at h'
  | nil =>
    cases e with
    | ret =>
      simp [construct] at h
      intro _
      exact h ▸ rfl
    | raiseErr =>
      simp [construct] at h

theorem getLast?_append_singleton {α : Type} (l : List α) (a : α) :
    (l ++ [a]).getLast? = some a := by
  exact List.getLast?_concat l

theorem ipub_op {V : Type} (s s' : CoState V) (op : Op)
    (h : applyOp s op = Outcome.ok s')
    (hi : s.canGetValue = true → s.published.getLast? = some s.result) :
    s'.canGetValue = true → s'.published.getLast? = some s'.result := by
  cases op with
  | destruct =>
    simp [applyOp, destruct] at h
    intro h'
    rw [← h] at h'
    simp at h'
  | resume =>
    cases hq : s.quit with
    | true =>
      simp [applyOp, resume, hq] at h
      exact h ▸ hi
    | false =>
      cases hp : s.pending with
      | cons v rest =>
        simp [applyOp, resume, hq, hp] at h
        intro _
        rw [← h]
        exact getLast?_append_singleton s.published v
      | nil =>
        cases he : s.ending with
        | ret =>
          simp [applyOp, resume, hq, hp, he] at h
          intro h'
          rw [← h] at h'
          simp at h'
        | raiseErr =>
          simp [applyOp, resume, hq, hp, he] at h

theorem construct_ipub {V : Type} (b : Body V) (d : V) (s0 : CoState V)
    (h : construct b d = Outcome.ok s0) :
    s0.canGetValue = true → s0.published.getLast? = some s0.result := by
  rcases b with ⟨ys, e⟩
  cases ys with
  | cons v rest =>
    simp [construct] at h
    intro _
    rw [← h]
    rfl
  | nil =>
    cases e with
    | ret =>
      simp [construct] at h
      intro h'
      rw [← h] at h'
      simp at h'
    | raiseErr =>
      simp [construct] at h

/-- C5: along every sequence of caller-side operations, the `quit` flag is
monotone (every operation that returns leaves it set once it is set, so it
becomes true at most once and is never reset); the only operations that
raise it are the destructor (line 42) and a `resume` that lets the body run
to its normal return (`run`, line 119); and the only way to be born with it
set is a body that returns without ever yielding. -/
theorem c5_quit_monotone_once :
    (∀ (V : Type) (s : CoState V) (ops : List Op) (s' : CoState V),
        s.quit = true → runOps s ops = Outcome.ok s' → s'.quit = true) ∧
    (∀ (V : Type) (s s' : CoState V) (op : Op),
        s.quit = false → applyOp s op = Outcome.ok s' → s'.quit = true →
        op = Op.destruct ∨
          (op = Op.resume ∧ s.pending = [] ∧ s.ending = BodyEnd.ret)) ∧
    (∀ (V : Type) (b : Body V) (d : V) (s0 : CoState V),
        construct b d = Outcome.ok s0 → s0.quit = true →
        b.yields = [] ∧ b.ending = BodyEnd.ret) := by
  refine ⟨?_, ?_, ?_⟩
  · intro V s ops s' hq hr
    exact runOps_preserves (fun t => t.quit = true) quit_mono_op ops s s' hr hq
  · intro V s s' op hq h h'
    cases op with
    | destruct => exact Or.inl rfl
    | resume =>
      cases hp : s.pending with
      | cons v rest =>
        simp [applyOp, resume, hq, hp] at h
        rw [← h] at h'
        simp [hq] at h'
      | nil =>
        cases he : s.ending with
        | ret => exact Or.inr ⟨rfl, rfl, rfl⟩
        | raiseErr => simp [applyOp, resume, hq, hp, he] at h
  · intro V b d s0 hc hq
    rcases b with ⟨ys, e⟩
    cases ys with
    | cons v rest =>
      simp [construct] at hc
      rw [← hc] at hq
      simp at hq
    | nil =>
      cases e with
      | ret => exact ⟨rfl, rfl⟩
      | raiseErr => simp [construct] at hc

theorem c5_quit_monotone_once_witness :
    (⟨true, false, 0, [], BodyEnd.ret, []⟩ : CoState Nat).quit = true ∧
    (Op.resume = Op.destruct ∨ (Op.resume = Op.resume ∧
      (⟨false, true, 5, [], BodyEnd.ret, [5]⟩ : CoState Nat).pending = [] ∧
      (⟨false, true, 5, [], BodyEnd.ret, [5]⟩ : CoState Nat).ending = BodyEnd.ret)) ∧
    ((⟨[], BodyEnd.ret⟩ : Body Nat).yields = [] ∧
      (⟨[], BodyEnd.ret⟩ : Body Nat).ending = BodyEnd.ret) :=
  ⟨c5_quit_monotone_once.1 Nat ⟨true, false, 0, [], BodyEnd.ret, []⟩ [Op.resume]
      ⟨true, false, 0, [], BodyEnd.ret, []⟩ rfl rfl,
   c5_quit_monotone_once.2.1 Nat ⟨false, true, 5, [], BodyEnd.ret, [5]⟩
      ⟨true, false, 5, [], BodyEnd.ret, [5]⟩ Op.resume rfl rfl rfl,
   c5_quit_monotone_once.2.2 Nat ⟨[], BodyEnd.ret⟩ 0
      ⟨true, false, 0, [], BodyEnd.ret, []⟩ rfl rfl⟩

/-- C6: in every reachable state with `quit` set, the value slot is invalid
(`canGetValue` is false — both code sites that set `quit`, lines 42-43 and
119-120, clear it together) and `resume` is accepted no further: it returns
at once leaving the state untouched, so no later operation can make the slot
readable again (the property holds again of every later reachable state). -/
theorem c6_quit_invalidates_slot :
    ∀ (V : Type) (b : Body V) (d : V) (s0 : CoState V) (ops : List Op) (s : CoState V),
      construct b d = Outcome.ok s0 → runOps s0 ops = Outcome.ok s → s.quit = true →
      s.canGetValue = false ∧ resume s = Outcome.ok s := by
  intro V b d s0 ops s hc hr hq
  have hinv := runOps_preserves (fun t => t.quit = true → t.canGetValue = false)
      iq_op ops s0 s hr (construct_iq b d s0 hc)
  exact ⟨hinv hq, by simp [resume, hq]⟩

theorem c6_quit_invalidates_slot_witness :
    (⟨true, false, 0, [], BodyEnd.ret, []⟩ : CoState Nat).canGetValue = false ∧
    resume (⟨true, false, 0, [], BodyEnd.ret, []⟩ : CoState Nat) =
      Outcome.ok ⟨true, false, 0, [], BodyEnd.ret, []⟩ :=
  c6_quit_invalidates_slot Nat ⟨[], BodyEnd.ret⟩ 0 ⟨true, false, 0, [], BodyEnd.ret, []⟩
    [] ⟨true, false, 0, [], BodyEnd.ret, []⟩ rfl rfl rfl

/-- C7: in every reachable state in which `canGetValue` holds, `get` passes
its assertion (line 64) and returns exactly the value most recently passed
to `yield` (the last entry of the ghost publication history); in every state
in which it does not hold, the assertion fires (fail fast) instead of a
value being returned. -/
theorem c7_get_last_published :
    ∀ (V : Type) (b : Body V) (d : V) (s0 : CoState V) (ops : List Op) (s : CoState V),
      construct b d = Outcome.ok s0 → runOps s0 ops = Outcome.ok s →
      (s.canGetValue = true →
        getChecked s = some s.result ∧ s.published.getLast? = some s.result) ∧
      (s.canGetValue = false → getChecked s = none) := by
  intro V b d s0 ops s hc hr
  have hinv := runOps_preserves
      (fun t => t.canGetValue = true → t.published.getLast? = some t.result)
      ipub_op ops s0 s hr (construct_ipub b d s0 hc)
  constructor
  · intro h
    exact ⟨by simp [getChecked, h], hinv h⟩
  · intro h
    simp [getChecked, h]

theorem c7_get_last_published_witness :
    getChecked (⟨false, true, 7, [], BodyEnd.ret, [7]⟩ : CoState Nat) = some 7 ∧
    (⟨false, true, 7, [], BodyEnd.ret, [7]⟩ : CoState Nat).published.getLast? = some 7 :=
  (c7_get_last_published Nat ⟨[7], BodyEnd.ret⟩ 0 ⟨false, true, 7, [], BodyEnd.ret, [7]⟩
    [] ⟨false, true, 7, [], BodyEnd.ret, [7]⟩ rfl rfl).1 rfl

/-- C8: whenever the constructor returns, the instance is either Suspended
(first value published, not finished — the worker reached its first `yield`)
or Finished (`quit` set, slot invalid — the body returned without yielding),
and a body that finishes instantly without yielding leaves the instance born
already Finished. -/
theorem c8_constructed_suspended_or_finished :
    (∀ (V : Type) (b : Body V) (d : V) (s0 : CoState V),
      construct b d = Outcome.ok s0 →
      (s0.quit = false ∧ s0.canGetValue = true ∧
        s0.result :: s0.pending = b.yields ∧ s0.ending = b.ending) ∨
      (s0.quit = true ∧ s0.canGetValue = false ∧
        b.yields = [] ∧ b.ending = BodyEnd.ret)) ∧
    (∀ (V : Type) (d : V),
      construct (⟨[], BodyEnd.ret⟩ : Body V) d =
        Outcome.ok ⟨true, false, d, [], BodyEnd.ret, []⟩) := by
  constructor
  · intro V b d s0 h
    rcases b with ⟨ys, e⟩
    cases ys with
    | cons v rest =>
      simp [construct] at h
      rw [← h]
      exact Or.inl ⟨rfl, rfl, rfl, rfl⟩
    | nil =>
      cases e with
      | ret =>
        simp [construct] at h
        rw [← h]
        exact Or.inr ⟨rfl, rfl, rfl, rfl⟩
      | raiseErr => simp [construct] at h
  · intro V d
    rfl

theorem c8_constructed_suspended_or_finished_witness :
    ((false = false ∧ true = true ∧ (3 : Nat) :: ([] : List Nat) = [3] ∧
        BodyEnd.raiseErr = BodyEnd.raiseErr) ∨
      (false = true ∧ true = false ∧ ([3] : List Nat) = [] ∧
        BodyEnd.raiseErr = BodyEnd.ret)) ∧
    construct (⟨[], BodyEnd.ret⟩ : Body Nat) 9 =
      Outcome.ok ⟨true, false, 9, [], BodyEnd.ret, []⟩ :=
  ⟨c8_constructed_suspended_or_finished.1 Nat ⟨[3], BodyEnd.raiseErr⟩ 0
      ⟨false, true, 3, [], BodyEnd.raiseErr, [3]⟩ rfl,
   c8_constructed_suspended_or_finished.2 Nat 9⟩

/-- C9: calling `resume` on a coroutine whose `quit` flag is already set
(assertion at line 77 compiled out) returns immediately with every field of
the state unchanged, and in the handshake model the caller holding the
mutex goes straight back to its own code without waking the worker: the
worker's location `w` is left untouched (no `notify_all` is performed, the
branch at line 78 being skipped). -/
theorem c9_resume_after_quit_noop :
    (∀ (V : Type) (s : CoState V), s.quit = true → resume s = Outcome.ok s) ∧
    (∀ (w : Handshake.WLoc) (n : Nat),
      Handshake.Step
        ⟨Handshake.CLoc.resHave, w, n, some Handshake.Owner.caller, true⟩
        ⟨Handshake.CLoc.user, w, n, none, true⟩) := by
  constructor
  · intro V s h
    simp [resume, h]
  · intro w n
    exact Handshake.Step.resFinished w n

theorem c9_resume_after_quit_noop_witness :
    resume (⟨true, false, 4, [], BodyEnd.ret, []⟩ : CoState Nat) =
      Outcome.ok ⟨true, false, 4, [], BodyEnd.ret, []⟩ ∧
    Handshake.Step
      ⟨Handshake.CLoc.resHave, Handshake.WLoc.dead, 0, some Handshake.Owner.caller, true⟩
      ⟨Handshake.CLoc.user, Handshake.WLoc.dead, 0, none, true⟩ :=
  ⟨c9_resume_after_quit_noop.1 Nat ⟨true, false, 4, [], BodyEnd.ret, []⟩ rfl,
   c9_resume_after_quit_noop.2 Handshake.WLoc.dead 0⟩

/-- C10: `get` (lines 62-66) assigns to no field, so whenever `canGetValue`
holds, one `get` returns the published value with the state unchanged, and
any number of consecutive `get` calls return that same value every time and
leave the state exactly as it was. -/
theorem c10_get_idempotent :
    ∀ (V : Type) (s : CoState V) (n : Nat), s.canGetValue = true →
      getStep s = some (s.result, s) ∧
      getRepeat n s = some (List.replicate n s.result, s) := by
  intro V s n h
  refine ⟨by simp [getStep, h], ?_⟩
  induction n with
  | zero => rfl
  | succ k ih =>
    simp [getRepeat, getStep, h, ih, List.replicate_succ]

/-- C3: the code path at the failing input.  For the body
`try { c->yield(0); } catch (const std::exception &) { log(); }`, with
cancellation requested while the worker is suspended in that `yield` (so the
`yield` raises `InterruptedException`, lines 56-59), the body's own handler
catches the internal signal — `InterruptedException` publicly derives from
`std::exception` (line 96) — reports it (one `report` performed), and the
body then completes normally: the teardown signal was caught, observed and
even swallowed by the body's error-handling logic. -/
theorem c3_interrupt_caught_by_body_handler :
    CancelSignal.execBody CancelSignal.guardedBody [true] =
      (1, CancelSignal.ExecRes.finished, []) := by
  rfl

/-- C4: the code path at the failing input.  None of the three
`conditionVariable.wait` calls of the source (lines 35, 55, 81) is guarded
by a predicate loop, and the C++ standard allows any of them to return
spuriously.  From the configuration right after thread creation, one
spurious wakeup of the constructor's wait yields an execution in which the
constructor returns while the worker is still executing the body: both the
caller and the worker run user code at the same instant. -/
theorem c4_spurious_wakeup_breaks_alternation :
    Relation.ReflTransGen Handshake.StepSp (Handshake.start 1)
      ⟨Handshake.CLoc.user, Handshake.WLoc.user, 1, none, false⟩ ∧
    Handshake.bothRunUserCode
      ⟨Handshake.CLoc.user, Handshake.WLoc.user, 1, none, false⟩ := by
  constructor
  · have h1 : Handshake.StepSp (Handshake.start 1)
        ⟨Handshake.CLoc.ctorInWs, Handshake.WLoc.user, 1, none, false⟩ :=
      Handshake.StepSp.base (Handshake.Step.ctorWait Handshake.WLoc.user 1 false)
    have h2 : Handshake.StepSp
        ⟨Handshake.CLoc.ctorInWs, Handshake.WLoc.user, 1, none, false⟩
        ⟨Handshake.CLoc.ctorReacq, Handshake.WLoc.user, 1, none, false⟩ :=
      Handshake.StepSp.spCtorWake Handshake.WLoc.user 1 none false
    have h3 : Handshake.StepSp
        ⟨Handshake.CLoc.ctorReacq, Handshake.WLoc.user, 1, none, false⟩
        ⟨Handshake.CLoc.user, Handshake.WLoc.user, 1, none, false⟩ :=
      Handshake.StepSp.base (Handshake.Step.ctorRet Handshake.WLoc.user 1 false)
    exact Relation.ReflTransGen.head h1
      (Relation.ReflTransGen.head h2 (Relation.ReflTransGen.single h3))
  · exact ⟨rfl, rfl⟩

theorem invB_mk (c : Handshake.CLoc) (w : Handshake.WLoc) (n : Nat)
    (m : Option Handshake.Owner) (q : Bool) :
    Handshake.invB ⟨c, w, n, m, q⟩ = Handshake.invA c w m q :=
  rfl

theorem step_preserves_invB {s t : Handshake.Sys} (h : Handshake.Step s t)
    (hs : Handshake.invB s = true) : Handshake.invB t = true := by
  cases h with
  | ctorWait w n q => rw [invB_mk] at hs ⊢; revert w q hs; decide
  | ctorRet w n q => rw [invB_mk] at hs ⊢; revert w q hs; decide
  | resCall w n m q => rw [invB_mk] at hs ⊢; revert w m q hs; decide
  | resAcq w n q => rw [invB_mk] at hs ⊢; revert w q hs; decide
  | resFinished w n => rw [invB_mk] at hs ⊢; revert w hs; decide
  | resGo w n => rw [invB_mk] at hs ⊢; revert w hs; decide
  | resRet w n q => rw [invB_mk] at hs ⊢; revert w q hs; decide
  | dtorCall w n m q => rw [invB_mk] at hs ⊢; revert w m q hs; decide
  | dtorAcq w n q => rw [invB_mk] at hs ⊢; revert w q hs; decide
  | dtorSet w n q => rw [invB_mk] at hs ⊢; revert w q hs; decide
  | dtorNotifyStep w n m q => rw [invB_mk] at hs ⊢; revert w m q hs; decide
  | dtorJoinDone n m q => rw [invB_mk] at hs ⊢; revert m q hs; decide
  | yieldCall c n m q => rw [invB_mk] at hs ⊢; revert c m q hs; decide
  | bodyRet c m q => rw [invB_mk] at hs ⊢; revert c m q hs; decide
  | yieldAcq c n q => rw [invB_mk] at hs ⊢; revert c q hs; decide
  | yieldPub c n q => rw [invB_mk] at hs ⊢; revert c q hs; decide
  | yieldReacqGo c n q => rw [invB_mk] at hs ⊢; revert c q hs; decide
  | yieldRet c n => rw [invB_mk] at hs ⊢; revert c hs; decide
  | yieldThrow c n => rw [invB_mk] at hs ⊢; revert c hs; decide
  | endAcq c n q => rw [invB_mk] at hs ⊢; revert c q hs; decide
  | endSet c n q => rw [invB_mk] at hs ⊢; revert c q hs; decide

theorem reachable_invB {n : Nat} {s : Handshake.Sys}
    (h : Relation.ReflTransGen Handshake.Step (Handshake.start n) s) :
    Handshake.invB s = true := by
  induction h with
  | refl => rfl
  | tail hab hbc ih => exact step_preserves_invB hbc ih

/-- With well-behaved condition variables (no spurious wakeups) the
handshake does enforce strict alternation: no interleaving reaches a
configuration in which both sides execute user code.  Together with the
spurious-wakeup execution above, this isolates the unguarded waits as the
exact source of the race. -/
theorem no_spurious_strict_alternation :
    ∀ (n k : Nat) (m : Option Handshake.Owner) (q : Bool),
      ¬ Relation.ReflTransGen Handshake.Step (Handshake.start n)
          ⟨Handshake.CLoc.user, Handshake.WLoc.user, k, m, q⟩ := by
  intro n k m q h
  have hinv := reachable_invB h
  rw [invB_mk] at hinv
  clear h
  revert hinv
  revert m q
  decide

theorem c10_get_idempotent_witness :
    getStep (⟨false, true, 4, [], BodyEnd.ret, [4]⟩ : CoState Nat) =
      some (4, ⟨false, true, 4, [], BodyEnd.ret, [4]⟩) ∧
    getRepeat 3 (⟨false, true, 4, [], BodyEnd.ret, [4]⟩ : CoState Nat) =
      some (List.replicate 3 4, ⟨false, true, 4, [], BodyEnd.ret, [4]⟩) :=
  c10_get_idempotent Nat ⟨false, true, 4, [], BodyEnd.ret, [4]⟩ 3 rfl

end CoroutineModel
